import Mathlib

set_option maxRecDepth 8000

/- Verification development for the energy-tracker consumption engine
   (`backend/db.py`, the final `meter_id`-aware revision of the data model).

   Modelling conventions:
   * SQLite TEXT values are Lean `String`s; SQLite's byte-wise (BINARY)
     text comparison is modelled by the lexicographic order `charListLt`
     on the underlying character lists (all dates are ASCII).
   * SQLite REAL meter values are modelled as exact rationals `ℚ`; the
     engine performs only additions, subtractions and sign tests.
   * Tables are Lean lists in rowid (insertion) order; `SELECT ... LIMIT 1`
     without `ORDER BY` is `List.find?`, `ORDER BY date ASC` is the
     insertion sort `sortByDate`.
   * SQL three-valued `col = ?` comparison against a NULL parameter is
     `sqlEqOpt`: it never matches when the parameter is NULL.
   * The `calculated_at` timestamp and the autoincrement id of
     `consumption_calc` rows are not modelled. -/

/-- One decimal digit character, as produced by Python `%02d`/`%04d`
formatting of values `0`-`9`. -/
def digitCh (n : Nat) : Char :=
  match n with
  | 0 => '0' | 1 => '1' | 2 => '2' | 3 => '3' | 4 => '4'
  | 5 => '5' | 6 => '6' | 7 => '7' | 8 => '8' | _ => '9'

/-- Numeric value of an ASCII digit character (used to model
`datetime.strptime` field extraction). -/
def charVal (c : Char) : Nat := c.toNat - 48

/-- Two-digit zero-padded rendering (`%02d`) of `n < 100`. -/
def pad2 (n : Nat) : List Char := [digitCh (n / 10), digitCh (n % 10)]

/-- Four-digit zero-padded rendering (`%04d`) of `n < 10000`. -/
def pad4 (n : Nat) : List Char := pad2 (n / 100) ++ pad2 (n % 100)

/-- The period string `f"{y:04d}-{m:02d}"`. -/
def renderPeriod (y m : Nat) : String := ⟨pad4 y ++ ('-' :: pad2 m)⟩

/-- The date string `f"{y:04d}-{m:02d}-{d:02d}"`. -/
def renderDate (y m d : Nat) : String := ⟨pad4 y ++ ('-' :: (pad2 m ++ ('-' :: pad2 d)))⟩

/-- `date[:7]`, the YYYY-MM period of a date string. -/
def periodOf (date : String) : String := ⟨date.data.take 7⟩

/-- The year field parsed from a `YYYY-MM-DD` date string
(`datetime.strptime(date, '%Y-%m-%d').year`). -/
def parseYear (date : String) : Nat :=
  match date.data with
  | c1 :: c2 :: c3 :: c4 :: _ =>
      ((charVal c1 * 10 + charVal c2) * 10 + charVal c3) * 10 + charVal c4
  | _ => 0

/-- The month field parsed from a `YYYY-MM-DD` date string. -/
def parseMonth (date : String) : Nat :=
  match date.data with
  | _ :: _ :: _ :: _ :: _ :: c6 :: c7 :: _ => charVal c6 * 10 + charVal c7
  | _ => 0

/-- The `prev_period` computation shared by `save_*` and `delete_*`:
month before the month of `date`, with January wrapping to December of
the previous year. -/
def prevPeriodStr (date : String) : String :=
  if parseMonth date = 1 then renderPeriod (parseYear date - 1) 12
  else renderPeriod (parseYear date) (parseMonth date - 1)

/-- Byte-wise lexicographic strict order on character lists: the SQLite
BINARY collation used for all `date` comparisons and orderings. -/
def charListLt : List Char → List Char → Bool
  | _, [] => false
  | [], _ :: _ => true
  | a :: as, b :: bs => decide (a < b) || (decide (a = b) && charListLt as bs)

/-- SQL `a <= b` on TEXT values. -/
def strLe (a b : String) : Bool := !(charListLt b.data a.data)

/-- Insert into a date-sorted list (helper of `sortByDate`). -/
def insertByDate {α : Type} (key : α → String) (x : α) : List α → List α
  | [] => [x]
  | y :: ys => if strLe (key y) (key x) then y :: insertByDate key x ys else x :: y :: ys

/-- `ORDER BY date ASC` as a deterministic insertion sort. -/
def sortByDate {α : Type} (key : α → String) : List α → List α
  | [] => []
  | x :: xs => insertByDate key x (sortByDate key xs)

/-- A `(date, value, comment)` row as fed to the consumption engine
(the projection `SELECT date, value, comment`). -/
structure RVC where
  date : String
  value : ℚ
  comment : Option String
deriving DecidableEq

/-- One entry of the `segments` list of the calculation details. -/
structure SegEntry where
  date : String
  value : ℚ
  comment : String
deriving DecidableEq

/-- The `calculation_details` dictionary built by
`_calculate_consumption_from_readings`. -/
structure CalcDetails where
  segments : List SegEntry
  total_consumption : ℚ
  segment_count : Nat
  first_reading_date : String
  last_reading_date : String
deriving DecidableEq

/-- The `segments` list: one entry per input reading, with a missing or
NULL comment replaced by the empty string (`comment_val or ''`). -/
def segmentsOf (rs : List RVC) : List SegEntry :=
  rs.map (fun r => ⟨r.date, r.value, r.comment.getD ""⟩)

/-- Per-pair consumption contributions: for each consecutive pair the
delta, or on a negative delta (meter reset) the next reading's value. -/
def segmentConsumptions : List ℚ → List ℚ
  | a :: b :: rest =>
      (if b - a < 0 then b else b - a) :: segmentConsumptions (b :: rest)
  | _ => []

/-- `_calculate_consumption_from_readings`: returns
`(total_consumption, calculation_details, segment_count)`; `(None, None, 0)`
when fewer than two readings are supplied. -/
def calculate_consumption_from_readings (rs : List RVC) :
    Option ℚ × Option CalcDetails × Nat :=
  if rs.length < 2 then (none, none, 0)
  else
    match rs with
    | [] => (none, none, 0)
    | r0 :: _ =>
      let segs := segmentConsumptions (rs.map (·.value))
      let total := segs.foldl (· + ·) 0
      (some total,
       some ⟨segmentsOf rs, total, segs.length, r0.date, (rs.getLastD r0).date⟩,
       segs.length)

/-- Modelled from the spec: the per-segment rule of section 4.2, summed
over all consecutive pairs — `delta` when `delta ≥ 0`, otherwise the
next reading's value.  Stated independently, to be compared with the
engine's accumulator loop. -/
def specPairTotal : List ℚ → ℚ
  | a :: b :: rest =>
      (if b - a ≥ 0 then b - a else b) + specPairTotal (b :: rest)
  | _ => 0

/-- A row of `readings_electricity`. -/
structure ElecReading where
  id : Nat
  date : String
  meter_name : String
  meter_id : String
  value : ℚ
  comment : Option String
  is_reset : Bool
deriving DecidableEq

/-- A row of `readings_water` (final split-channel schema). -/
structure WaterReading where
  id : Nat
  date : String
  room : String
  meter_id : String
  value : ℚ
  is_warm_water : Bool
  comment : Option String
  is_reset : Bool
deriving DecidableEq

/-- A row of `consumption_calc` (id and `calculated_at` not modelled). -/
structure ConsumptionRow where
  period : String
  entity_type : String
  entity_id : String
  meter_id : Option String
  consumption_value : Option ℚ
  calculation_details : Option CalcDetails
deriving DecidableEq

/-- The database state: the three tables the claims touch, plus the
autoincrement counter of `readings_electricity`. -/
structure DB where
  elec : List ElecReading
  water : List WaterReading
  consumption : List ConsumptionRow
  nextElecId : Nat
deriving DecidableEq

/-- The HTTP-facing `ElectricityReadingInput` model. -/
structure ElecInput where
  date : String
  meter_name : String
  meter_id : String
  value : ℚ
  comment : Option String
deriving DecidableEq

/-- SQL `col = ?` where the parameter may be NULL: a NULL parameter
matches nothing (three-valued logic). -/
def sqlEqOpt (param : Option String) (col : Option String) : Bool :=
  match param with
  | some s => col == some s
  | none => false

/-- `SELECT meter_id FROM readings_electricity WHERE meter_name = ? LIMIT 1`. -/
def lookupElecMeterId (elec : List ElecReading) (meter : String) : Option String :=
  (elec.find? (fun r => r.meter_name == meter)).map (·.meter_id)

/-- The WHERE clause of the `DELETE FROM consumption_calc` statement of
`_calculate_electricity_consumption`. -/
def elecCalcMatch (period meter : String) (mid : Option String)
    (row : ConsumptionRow) : Bool :=
  row.period == period && row.entity_type == "electricity" &&
    row.entity_id == meter && sqlEqOpt mid row.meter_id

/-- All electricity readings of a meter in a period, `ORDER BY date ASC`. -/
def elecPeriodReadings (elec : List ElecReading) (meter period : String) :
    List ElecReading :=
  sortByDate (·.date)
    (elec.filter (fun r => r.meter_name == meter && periodOf r.date == period))

/-- First reading with `date >= f"{period}-32"`, i.e. the first reading of
the next period (`ORDER BY date ASC LIMIT 1`). -/
def elecBoundaryReading (elec : List ElecReading) (meter period : String) :
    Option ElecReading :=
  (sortByDate (·.date)
    (elec.filter (fun r => r.meter_name == meter && strLe (⟨period.data ++ "-32".data⟩ : String) r.date))).head?

/-- Projection of an electricity reading to the engine's input row. -/
def elecRVC (r : ElecReading) : RVC := ⟨r.date, r.value, r.comment⟩

/-- The consumption rows `_calculate_electricity_consumption` inserts for
`(periodOf date, meter)` when run over the reading list `elec`: none when
the period has no readings, otherwise exactly the one freshly computed
row.  This is a pure function of the reading store. -/
def elecFreshRows (elec : List ElecReading) (meter date : String) :
    List ConsumptionRow :=
  let period := periodOf date
  let mid := lookupElecMeterId elec meter
  let prs := elecPeriodReadings elec meter period
  if prs.isEmpty then []
  else
    let allR := (prs ++ (elecBoundaryReading elec meter period).toList).map elecRVC
    let res := calculate_consumption_from_readings allR
    [⟨period, "electricity", meter, mid, res.1, res.2.1⟩]

/-- `_calculate_electricity_consumption(conn, meter_name, date)`: look up
the meter's `meter_id`, delete the old calculation for the key, and if
the period has readings insert the freshly computed row (the row's
consumption and details are NULL when fewer than two readings are
available). -/
def calculate_electricity_consumption (meter date : String) (db : DB) : DB :=
  let period := periodOf date
  let mid := lookupElecMeterId db.elec meter
  let kept := db.consumption.filter (fun row => !(elecCalcMatch period meter mid row))
  let prs := elecPeriodReadings db.elec meter period
  if prs.isEmpty then { db with consumption := kept }
  else
    let allR := (prs ++ (elecBoundaryReading db.elec meter period).toList).map elecRVC
    let res := calculate_consumption_from_readings allR
    { db with consumption := kept ++ [⟨period, "electricity", meter, mid, res.1, res.2.1⟩] }

/-- The uniqueness key of `readings_electricity`:
`UNIQUE(date, meter_name, meter_id)`. -/
def elecConflict (r : ElecInput) (row : ElecReading) : Bool :=
  row.date == r.date && row.meter_name == r.meter_name && row.meter_id == r.meter_id

/-- The `INSERT ... ON CONFLICT(date, meter_name, meter_id) DO UPDATE SET
value, comment ... RETURNING id` statement: overwrite the conflicting
row's value and comment in place, otherwise append a fresh row; returns
the affected row's id. -/
def upsertElec (r : ElecInput) (db : DB) : DB × Nat :=
  match db.elec.find? (elecConflict r) with
  | some row =>
      ({ db with elec := db.elec.map (fun q =>
            if elecConflict r q then { q with value := r.value, comment := r.comment } else q) },
       row.id)
  | none =>
      let newRow : ElecReading :=
        ⟨db.nextElecId, r.date, r.meter_name, r.meter_id, r.value, r.comment, false⟩
      ({ db with elec := db.elec ++ [newRow], nextElecId := db.nextElecId + 1 },
       db.nextElecId)

/-- `SELECT 1 FROM readings_electricity WHERE meter_name = ? AND
SUBSTR(date, 1, 7) = ? LIMIT 1` (existence check of the cascade). -/
def existsElecInPeriod (elec : List ElecReading) (meter period : String) : Bool :=
  elec.any (fun r => r.meter_name == meter && periodOf r.date == period)

/-- `save_electricity_reading`: upsert the reading, recompute the current
month, and when the previous month has readings recompute it too (the new
reading may be the boundary reading its calculation needed). -/
def save_electricity_reading (r : ElecInput) (db : DB) : DB × Nat :=
  let up := upsertElec r db
  let db2 := calculate_electricity_consumption r.meter_name r.date up.1
  let prevP := prevPeriodStr r.date
  let db3 :=
    if existsElecInPeriod db2.elec r.meter_name prevP then
      calculate_electricity_consumption r.meter_name (⟨prevP.data ++ "-01".data⟩ : String) db2
    else db2
  (db3, up.2)

/-- `update_electricity_reading`: overwrite date, meter, value and comment
of the row with the given id, then recompute only the month of the new
date; returns whether a row was updated. -/
def update_electricity_reading (id : Nat) (r : ElecInput) (db : DB) : DB × Bool :=
  let elec2 := db.elec.map (fun q =>
    if q.id == id then
      { q with date := r.date, meter_name := r.meter_name, meter_id := r.meter_id,
               value := r.value, comment := r.comment }
    else q)
  let updated := db.elec.any (fun q => q.id == id)
  let db1 := { db with elec := elec2 }
  if updated then (calculate_electricity_consumption r.meter_name r.date db1, true)
  else (db1, false)

/-- `delete_electricity_reading`: remove the row, recompute its month, and
when the previous month still has readings recompute it as well. -/
def delete_electricity_reading (id : Nat) (db : DB) : DB × Bool :=
  let rd? := db.elec.find? (fun q => q.id == id)
  let deleted := db.elec.any (fun q => q.id == id)
  let db1 := { db with elec := db.elec.filter (fun q => !(q.id == id)) }
  match rd?, deleted with
  | some rd, true =>
      let db2 := calculate_electricity_consumption rd.meter_name rd.date db1
      let prevP := prevPeriodStr rd.date
      let db3 :=
        if existsElecInPeriod db2.elec rd.meter_name prevP then
          calculate_electricity_consumption rd.meter_name (⟨prevP.data ++ "-01".data⟩ : String) db2
        else db2
      (db3, true)
  | _, _ => (db1, deleted)

/-- The channel filter `room = ? AND is_warm_water = ?` of the water
queries. -/
def waterChanPred (room : String) (warm : Bool) (r : WaterReading) : Bool :=
  r.room == room && r.is_warm_water == warm

/-- `SELECT meter_id FROM readings_water WHERE room = ? AND
is_warm_water = ? LIMIT 1`. -/
def lookupWaterMeterId (ws : List WaterReading) (room : String) (warm : Bool) :
    Option String :=
  (ws.find? (fun r => r.room == room && r.is_warm_water == warm)).map (·.meter_id)

/-- All water readings of a room/channel in a period, `ORDER BY date ASC`. -/
def waterPeriodReadings (ws : List WaterReading) (room : String) (warm : Bool)
    (period : String) : List WaterReading :=
  sortByDate (·.date)
    (ws.filter (fun r => r.room == room && r.is_warm_water == warm && periodOf r.date == period))

/-- First water reading of the room/channel with `date >= f"{period}-32"`. -/
def waterBoundaryReading (ws : List WaterReading) (room : String) (warm : Bool)
    (period : String) : Option WaterReading :=
  (sortByDate (·.date)
    (ws.filter (fun r => r.room == room && r.is_warm_water == warm &&
      strLe (⟨period.data ++ "-32".data⟩ : String) r.date))).head?

/-- Projection of an in-period water reading to the engine's input row. -/
def waterRVC (r : WaterReading) : RVC := ⟨r.date, r.value, r.comment⟩

/-- Projection of the boundary water reading: the source builds the dict
explicitly, already replacing a NULL comment by `''`. -/
def waterBoundaryRVC (r : WaterReading) : RVC :=
  ⟨r.date, r.value, some (r.comment.getD "")⟩

/-- The `water_types` list the per-channel loop of
`_calculate_water_consumption` iterates over, as selected by the
`is_warm_water` argument (None = both channels). -/
def waterTypes (isWarm : Option Bool) : List (String × Bool) :=
  (if isWarm = none ∨ isWarm = some true then [("water_warm", true)] else []) ++
  (if isWarm = none ∨ isWarm = some false then [("water_cold", false)] else [])

/-- The consumption row one iteration of the per-channel loop inserts:
none when the room/channel has no reading in the period (`continue`),
otherwise the freshly computed row (with NULL consumption and details
when fewer than two readings are available). -/
def waterChannelRow (ws : List WaterReading) (room period : String)
    (etype : String) (warm : Bool) : Option ConsumptionRow :=
  let mid := lookupWaterMeterId ws room warm
  let prs := waterPeriodReadings ws room warm period
  if prs.isEmpty then none
  else
    let allR := prs.map waterRVC ++
      ((waterBoundaryReading ws room warm period).map waterBoundaryRVC).toList
    let res := calculate_consumption_from_readings allR
    some ⟨period, etype, room, mid, res.1, res.2.1⟩

/-- The WHERE clause of the per-channel `DELETE FROM consumption_calc`
of `_calculate_water_consumption`. -/
def waterCalcMatch (period room etype : String) (mid : Option String)
    (row : ConsumptionRow) : Bool :=
  row.period == period && row.entity_id == room && row.entity_type == etype &&
    sqlEqOpt mid row.meter_id

/-- `_calculate_water_consumption(conn, room, date, is_warm_water)`: for
each selected channel, delete the old calculation for the key and insert
the freshly computed row when the period has readings. -/
def calculate_water_consumption (room date : String) (isWarm : Option Bool)
    (db : DB) : DB :=
  let period := periodOf date
  (waterTypes isWarm).foldl
    (fun acc ty =>
      let mid := lookupWaterMeterId acc.water room ty.2
      let kept := acc.consumption.filter
        (fun row => !(waterCalcMatch period room ty.1 mid row))
      match waterChannelRow acc.water room period ty.1 ty.2 with
      | none => { acc with consumption := kept }
      | some row => { acc with consumption := kept ++ [row] })
    db

/-- All stored consumption rows for one exact key
`(period, entity_type, entity_id, meter_id)` — the observation used to
state what "the Consumption Record for a key" is. -/
def rowsWithKey (period etype eid : String) (mid : Option String)
    (cons : List ConsumptionRow) : List ConsumptionRow :=
  cons.filter (fun row => row.period == period && row.entity_type == etype &&
    row.entity_id == eid && row.meter_id == mid)

/-- The uniqueness key of an electricity reading row. -/
def elecKey (r : ElecReading) : String × String × String :=
  (r.date, r.meter_name, r.meter_id)

/-- The `UNIQUE(date, meter_name, meter_id)` invariant of
`readings_electricity`. -/
def elecKeyUnique (l : List ElecReading) : Prop :=
  l.Pairwise (fun a b => elecKey a ≠ elecKey b)

/- ------------------------------------------------------------------ -/
/- Generic list lemmas                                                 -/
/- ------------------------------------------------------------------ -/

theorem find?_eq_head?_filter {α : Type} (p : α → Bool) (l : List α) :
    l.find? p = (l.filter p).head? := by
  induction l with
  | nil => rfl
  | cons a as ih =>
      cases hpa : p a with
      | true =>
          rw [List.find?_cons_of_pos _ hpa, List.filter_cons_of_pos hpa]
          rfl
      | false =>
          rw [List.find?_cons_of_neg _ (by simp [hpa]),
            List.filter_cons_of_neg (by simp [hpa]), ih]

theorem insertByDate_length {α : Type} (key : α → String) (x : α) (l : List α) :
    (insertByDate key x l).length = l.length + 1 := by
  induction l with
  | nil => rfl
  | cons a as ih =>
      simp only [insertByDate]
      by_cases h : strLe (key a) (key x) = true
      · simp [h, ih]
      · simp only [Bool.not_eq_true] at h
        simp [h]

theorem sortByDate_length {α : Type} (key : α → String) (l : List α) :
    (sortByDate key l).length = l.length := by
  induction l with
  | nil => rfl
  | cons a as ih => simp [sortByDate, insertByDate_length, ih]

theorem sortByDate_eq_nil_iff {α : Type} (key : α → String) (l : List α) :
    sortByDate key l = [] ↔ l = [] := by
  constructor
  · intro h
    have := sortByDate_length key l
    rw [h] at this
    exact List.length_eq_zero.mp this.symm
  · intro h; subst h; rfl

/- ------------------------------------------------------------------ -/
/- Structure of `_calculate_electricity_consumption`                   -/
/- ------------------------------------------------------------------ -/

theorem calc_elec_eq (meter date : String) (db : DB) :
    calculate_electricity_consumption meter date db =
      { db with consumption :=
          db.consumption.filter (fun row =>
            !(elecCalcMatch (periodOf date) meter (lookupElecMeterId db.elec meter) row))
          ++ elecFreshRows db.elec meter date } := by
  simp only [calculate_electricity_consumption, elecFreshRows]
  split
  · simp
  · rfl

theorem calc_elec_elec (meter date : String) (db : DB) :
    (calculate_electricity_consumption meter date db).elec = db.elec := by
  rw [calc_elec_eq]

theorem calc_elec_water (meter date : String) (db : DB) :
    (calculate_electricity_consumption meter date db).water = db.water := by
  rw [calc_elec_eq]

theorem lookup_isSome_of_fresh (elec : List ElecReading) (meter period : String)
    (h : ¬ elecPeriodReadings elec meter period = []) :
    ∃ x, lookupElecMeterId elec meter = some x := by
  have hne : elec.filter
      (fun r => r.meter_name == meter && periodOf r.date == period) ≠ [] := by
    intro hc
    exact h (by simp [elecPeriodReadings, hc, sortByDate])
  obtain ⟨r, hr⟩ := List.exists_mem_of_ne_nil _ hne
  have hr' := List.mem_filter.mp hr
  have hm : (r.meter_name == meter) = true := ((Bool.and_eq_true _ _).mp hr'.2).1
  have hsome : (elec.find? (fun r => r.meter_name == meter)).isSome = true := by
    rw [List.find?_isSome]
    exact ⟨r, hr'.1, hm⟩
  obtain ⟨q, hq⟩ := Option.isSome_iff_exists.mp hsome
  exact ⟨q.meter_id, by simp [lookupElecMeterId, hq]⟩

theorem filter_self_idem {α : Type} (p : α → Bool) (l : List α) :
    (l.filter p).filter p = l.filter p := by
  rw [List.filter_filter]
  exact List.filter_congr (by intro x hx; simp)

theorem elecFreshRows_fields (elec : List ElecReading) (meter date : String) :
    ∀ row ∈ elecFreshRows elec meter date,
      row.period = periodOf date ∧ row.entity_type = "electricity" ∧
      row.entity_id = meter ∧ row.meter_id = lookupElecMeterId elec meter := by
  intro row hrow
  by_cases hp : (elecPeriodReadings elec meter (periodOf date)).isEmpty = true
  · simp [elecFreshRows, hp] at hrow
  · simp only [Bool.not_eq_true] at hp
    simp only [elecFreshRows, hp, Bool.false_eq_true, if_false, List.mem_singleton] at hrow
    subst hrow
    exact ⟨rfl, rfl, rfl, rfl⟩

theorem elecFreshRows_match (elec : List ElecReading) (meter date : String) :
    ∀ row ∈ elecFreshRows elec meter date,
      elecCalcMatch (periodOf date) meter (lookupElecMeterId elec meter) row = true := by
  intro row hrow
  obtain ⟨h1, h2, h3, h4⟩ := elecFreshRows_fields elec meter date row hrow
  have hne : ¬ elecPeriodReadings elec meter (periodOf date) = [] := by
    intro hc
    rw [elecFreshRows] at hrow
    simp [hc] at hrow
  obtain ⟨x, hx⟩ := lookup_isSome_of_fresh elec meter (periodOf date) hne
  simp [elecCalcMatch, sqlEqOpt, h1, h2, h3, h4, hx]

theorem elecFreshRows_filtered (elec : List ElecReading) (meter date : String) :
    (elecFreshRows elec meter date).filter (fun row =>
      !(elecCalcMatch (periodOf date) meter (lookupElecMeterId elec meter) row)) = [] := by
  rw [List.filter_eq_nil_iff]
  intro row hrow
  simp [elecFreshRows_match elec meter date row hrow]

theorem calc_elec_idem (meter date : String) (db : DB) :
    calculate_electricity_consumption meter date
        (calculate_electricity_consumption meter date db) =
      calculate_electricity_consumption meter date db := by
  rw [calc_elec_eq meter date db, calc_elec_eq]
  simp only []
  congr 1
  rw [List.filter_append, filter_self_idem, elecFreshRows_filtered, List.append_nil]

theorem rowsWithKey_calc_self (meter date : String) (db : DB) (x : String)
    (hx : lookupElecMeterId db.elec meter = some x) :
    rowsWithKey (periodOf date) "electricity" meter (some x)
        (calculate_electricity_consumption meter date db).consumption =
      elecFreshRows db.elec meter date := by
  rw [calc_elec_eq]
  show rowsWithKey _ _ _ _ (_ ++ _) = _
  unfold rowsWithKey
  rw [List.filter_append]
  have hpt : ∀ row : ConsumptionRow,
      elecCalcMatch (periodOf date) meter (some x) row =
        (row.period == periodOf date && row.entity_type == "electricity" &&
          row.entity_id == meter && row.meter_id == some x) := by
    intro row; rfl
  have h1 : (db.consumption.filter (fun row =>
      !(elecCalcMatch (periodOf date) meter (lookupElecMeterId db.elec meter) row))).filter
        (fun row => row.period == periodOf date && row.entity_type == "electricity" &&
          row.entity_id == meter && row.meter_id == some x) = [] := by
    rw [List.filter_filter, List.filter_eq_nil_iff]
    intro row hrow
    rw [hx, hpt]
    cases hk : (row.period == periodOf date && row.entity_type == "electricity" &&
        row.entity_id == meter && row.meter_id == some x) <;> simp [hk]
  have h2 : (elecFreshRows db.elec meter date).filter
      (fun row => row.period == periodOf date && row.entity_type == "electricity" &&
        row.entity_id == meter && row.meter_id == some x) =
      elecFreshRows db.elec meter date := by
    rw [List.filter_eq_self]
    intro row hrow
    have hm := elecFreshRows_match db.elec meter date row hrow
    rw [hx, hpt] at hm
    exact hm
  rw [h1, h2, List.nil_append]

theorem rowsWithKey_calc_other (meter date P t e : String) (mm : Option String)
    (db : DB) (hP : P ≠ periodOf date) :
    rowsWithKey P t e mm
        (calculate_electricity_consumption meter date db).consumption =
      rowsWithKey P t e mm db.consumption := by
  rw [calc_elec_eq]
  show rowsWithKey _ _ _ _ (_ ++ _) = _
  unfold rowsWithKey
  rw [List.filter_append]
  have h2 : (elecFreshRows db.elec meter date).filter
      (fun row => row.period == P && row.entity_type == t &&
        row.entity_id == e && row.meter_id == mm) = [] := by
    rw [List.filter_eq_nil_iff]
    intro row hrow hk
    obtain ⟨h1, _, _, _⟩ := elecFreshRows_fields db.elec meter date row hrow
    have : (row.period == P) = true := by
      cases hb : (row.period == P) <;> simp [hb] at hk ⊢
    exact hP (beq_iff_eq.mp this ▸ h1.symm ▸ rfl)
  have h1 : (db.consumption.filter (fun row =>
      !(elecCalcMatch (periodOf date) meter (lookupElecMeterId db.elec meter) row))).filter
        (fun row => row.period == P && row.entity_type == t &&
          row.entity_id == e && row.meter_id == mm) =
      db.consumption.filter (fun row => row.period == P && row.entity_type == t &&
        row.entity_id == e && row.meter_id == mm) := by
    rw [List.filter_filter]
    apply List.filter_congr
    intro row hrow
    cases hk : (row.period == P && row.entity_type == t &&
        row.entity_id == e && row.meter_id == mm)
    · simp [hk]
    · have hper : row.period = P := by
        have : (row.period == P) = true := by
          cases hb : (row.period == P) <;> simp [hb] at hk ⊢
        exact beq_iff_eq.mp this
      have hm : elecCalcMatch (periodOf date) meter (lookupElecMeterId db.elec meter) row = false := by
        unfold elecCalcMatch
        have : (row.period == periodOf date) = false := by
          rw [beq_eq_false_iff_ne]
          rw [hper]
          exact hP
        simp [this]
      simp [hk, hm]
  rw [h1, h2, List.append_nil]

theorem foldl_add_shift (l : List ℚ) : ∀ a : ℚ,
    l.foldl (· + ·) a = a + l.foldl (· + ·) 0 := by
  induction l with
  | nil => intro a; simp
  | cons b bs ih =>
      intro a
      rw [List.foldl_cons, List.foldl_cons, ih (a + b), ih (0 + b)]
      ring

theorem segTotal_spec : ∀ vals : List ℚ,
    (segmentConsumptions vals).foldl (· + ·) 0 = specPairTotal vals
  | [] => by simp [segmentConsumptions, specPairTotal]
  | [_] => by simp [segmentConsumptions, specPairTotal]
  | a :: b :: rest => by
      have ih := segTotal_spec (b :: rest)
      simp only [segmentConsumptions, specPairTotal]
      rw [List.foldl_cons, foldl_add_shift, ih]
      have : (if b - a < 0 then b else b - a) = (if b - a ≥ 0 then b - a else b) := by
        split_ifs with h1 h2
        · linarith
        · rfl
        · rfl
        · linarith
      rw [this]
      ring

theorem segmentConsumptions_nonneg : ∀ vals : List ℚ,
    (∀ v ∈ vals, 0 ≤ v) → ∀ x ∈ segmentConsumptions vals, 0 ≤ x
  | [] => by intro _ x hx; simp [segmentConsumptions] at hx
  | [_] => by intro _ x hx; simp [segmentConsumptions] at hx
  | a :: b :: rest => by
      intro hall x hx
      simp only [segmentConsumptions, List.mem_cons] at hx
      rcases hx with hx | hx
      · subst hx
        have hb : (0 : ℚ) ≤ b := hall b (by simp)
        split_ifs with h
        · exact hb
        · linarith [not_lt.mp h]
      · exact segmentConsumptions_nonneg (b :: rest)
          (by intro v hv; exact hall v (List.mem_cons_of_mem a hv)) x hx

theorem foldl_add_nonneg (l : List ℚ) : ∀ a : ℚ, 0 ≤ a →
    (∀ x ∈ l, 0 ≤ x) → 0 ≤ l.foldl (· + ·) a := by
  induction l with
  | nil => intro a ha _; simpa using ha
  | cons b bs ih =>
      intro a ha hall
      rw [List.foldl_cons]
      exact ih (a + b) (by have := hall b (by simp); linarith)
        (by intro x hx; exact hall x (List.mem_cons_of_mem b hx))

/- ------------------------------------------------------------------ -/
/- Field-preservation lemmas for the orchestrator operations           -/
/- ------------------------------------------------------------------ -/

theorem upsertElec_consumption (r : ElecInput) (db : DB) :
    (upsertElec r db).1.consumption = db.consumption := by
  unfold upsertElec
  cases db.elec.find? (elecConflict r) <;> rfl

theorem upsertElec_water (r : ElecInput) (db : DB) :
    (upsertElec r db).1.water = db.water := by
  unfold upsertElec
  cases db.elec.find? (elecConflict r) <;> rfl

theorem save_elec_readings (r : ElecInput) (db : DB) :
    (save_electricity_reading r db).1.elec = (upsertElec r db).1.elec := by
  simp only [save_electricity_reading]
  split
  · rw [calc_elec_elec, calc_elec_elec]
  · rw [calc_elec_elec]

/- ------------------------------------------------------------------ -/
/- Date-string lemmas                                                  -/
/- ------------------------------------------------------------------ -/

theorem periodOf_renderDate (y m d : Nat) :
    periodOf (renderDate y m d) = renderPeriod y m := rfl

theorem periodOf_period01 (y m : Nat) :
    periodOf (⟨(renderPeriod y m).data ++ "-01".data⟩ : String) = renderPeriod y m := rfl

theorem charVal_digitCh : ∀ n < 10, charVal (digitCh n) = n := by decide

theorem parseYear_renderDate (y m d : Nat) (hy : y < 10000) :
    parseYear (renderDate y m d) = y := by
  show ((charVal (digitCh (y / 100 / 10)) * 10 + charVal (digitCh (y / 100 % 10))) * 10 +
      charVal (digitCh (y % 100 / 10))) * 10 + charVal (digitCh (y % 100 % 10)) = y
  rw [charVal_digitCh _ (by omega), charVal_digitCh _ (by omega),
    charVal_digitCh _ (by omega), charVal_digitCh _ (by omega)]
  omega

theorem parseMonth_renderDate (y m d : Nat) (hm : m < 100) :
    parseMonth (renderDate y m d) = m := by
  show charVal (digitCh (m / 10)) * 10 + charVal (digitCh (m % 10)) = m
  rw [charVal_digitCh _ (by omega), charVal_digitCh _ (by omega)]
  omega

theorem parseYear_renderPeriod (y m : Nat) (hy : y < 10000) :
    parseYear (renderPeriod y m) = y := by
  show ((charVal (digitCh (y / 100 / 10)) * 10 + charVal (digitCh (y / 100 % 10))) * 10 +
      charVal (digitCh (y % 100 / 10))) * 10 + charVal (digitCh (y % 100 % 10)) = y
  rw [charVal_digitCh _ (by omega), charVal_digitCh _ (by omega),
    charVal_digitCh _ (by omega), charVal_digitCh _ (by omega)]
  omega

theorem parseMonth_renderPeriod (y m : Nat) (hm : m < 100) :
    parseMonth (renderPeriod y m) = m := by
  show charVal (digitCh (m / 10)) * 10 + charVal (digitCh (m % 10)) = m
  rw [charVal_digitCh _ (by omega), charVal_digitCh _ (by omega)]
  omega

theorem renderPeriod_ne (y1 m1 y2 m2 : Nat) (hy1 : y1 < 10000) (hy2 : y2 < 10000)
    (hm1 : m1 < 100) (hm2 : m2 < 100) (hne : ¬ (y1 = y2 ∧ m1 = m2)) :
    renderPeriod y1 m1 ≠ renderPeriod y2 m2 := by
  intro h
  apply hne
  constructor
  · have := congrArg parseYear h
    rwa [parseYear_renderPeriod _ _ hy1, parseYear_renderPeriod _ _ hy2] at this
  · have := congrArg parseMonth h
    rwa [parseMonth_renderPeriod _ _ hm1, parseMonth_renderPeriod _ _ hm2] at this

theorem prevPeriodStr_renderDate (y m d : Nat) (hy : y < 10000) (hm : m < 100) :
    prevPeriodStr (renderDate y m d) =
      if m = 1 then renderPeriod (y - 1) 12 else renderPeriod y (m - 1) := by
  unfold prevPeriodStr
  rw [parseYear_renderDate _ _ _ hy, parseMonth_renderDate _ _ _ hm]

theorem prevPeriod_ne_period (y m d : Nat) (hy : y < 10000) (hm1 : 1 ≤ m) (hm2 : m ≤ 12) :
    prevPeriodStr (renderDate y m d) ≠ periodOf (renderDate y m d) := by
  rw [periodOf_renderDate, prevPeriodStr_renderDate _ _ _ hy (by omega)]
  by_cases h1 : m = 1
  · simp only [h1, if_true]
    exact renderPeriod_ne _ _ _ _ (by omega) hy (by omega) (by omega) (by omega)
  · simp only [h1, if_false]
    exact renderPeriod_ne _ _ _ _ hy hy (by omega) (by omega) (by omega)

theorem calc_total_eq (rs : List RVC) (h : 2 ≤ rs.length) :
    (calculate_consumption_from_readings rs).1 =
      some ((segmentConsumptions (rs.map (·.value))).foldl (· + ·) 0) := by
  unfold calculate_consumption_from_readings
  rw [if_neg (by omega)]
  cases rs with
  | nil => simp at h
  | cons r0 rest => rfl

/- ------------------------------------------------------------------ -/
/- Claim theorems                                                      -/
/- ------------------------------------------------------------------ -/

/-- C1: for every input of at least two readings the engine's total is
the sum over all consecutive pairs of the delta when it is non-negative
and of the next reading's value on a negative delta (meter reset); in
particular it yields 50 for values `[100, 120, 30]`, 20 for
`[10, 15, 22, 30]` and 12 for `[10, 15, 22]`. -/
theorem C1_engine_total :
    (∀ rs : List RVC, 2 ≤ rs.length →
        (calculate_consumption_from_readings rs).1 =
          some (specPairTotal (rs.map (·.value)))) ∧
    (calculate_consumption_from_readings
      [⟨"2024-01-01", 100, none⟩, ⟨"2024-01-15", 120, none⟩,
       ⟨"2024-02-01", 30, none⟩]).1 = some 50 ∧
    (calculate_consumption_from_readings
      [⟨"2024-01-01", 10, none⟩, ⟨"2024-01-10", 15, none⟩,
       ⟨"2024-01-20", 22, none⟩, ⟨"2024-02-01", 30, none⟩]).1 = some 20 ∧
    (calculate_consumption_from_readings
      [⟨"2024-01-01", 10, none⟩, ⟨"2024-01-10", 15, none⟩,
       ⟨"2024-01-20", 22, none⟩]).1 = some 12 := by
  refine ⟨?_, ?_, ?_, ?_⟩
  · intro rs h
    rw [calc_total_eq rs h, segTotal_spec]
  · with_unfolding_all decide
  · with_unfolding_all decide
  · with_unfolding_all decide

/-- Witness for C1 at the reset example `[100, 120, 30]`. -/
theorem C1_engine_total_witness :
    2 ≤ ([⟨"2024-01-01", 100, none⟩, ⟨"2024-01-15", 120, none⟩,
          ⟨"2024-02-01", 30, none⟩] : List RVC).length ∧
    (calculate_consumption_from_readings
      [⟨"2024-01-01", 100, none⟩, ⟨"2024-01-15", 120, none⟩,
       ⟨"2024-02-01", 30, none⟩]).1 =
      some (specPairTotal (([⟨"2024-01-01", 100, none⟩, ⟨"2024-01-15", 120, none⟩,
        ⟨"2024-02-01", 30, none⟩] : List RVC).map (·.value))) :=
  ⟨by decide, C1_engine_total.1 _ (by decide)⟩

/-- C3: recomputing a (period, meter) key twice in a row over unchanged
readings leaves exactly the same database state — in particular the same
stored consumption total and the same calculation-details content and
ordering — as recomputing it once. -/
theorem C3_recalc_idempotent (meter date : String) (db : DB) :
    calculate_electricity_consumption meter date
        (calculate_electricity_consumption meter date db) =
      calculate_electricity_consumption meter date db :=
  calc_elec_idem meter date db

/-- C10: when every reading value is non-negative and the engine returns
a total, that total is non-negative. -/
theorem C10_total_nonneg (rs : List RVC) (t : ℚ)
    (hvals : ∀ r ∈ rs, 0 ≤ r.value)
    (ht : (calculate_consumption_from_readings rs).1 = some t) :
    0 ≤ t := by
  by_cases hlen : 2 ≤ rs.length
  · rw [calc_total_eq rs hlen] at ht
    have hv : ∀ v ∈ rs.map (·.value), (0 : ℚ) ≤ v := by
      intro v hv
      obtain ⟨r, hr, rfl⟩ := List.mem_map.mp hv
      exact hvals r hr
    have := foldl_add_nonneg (segmentConsumptions (rs.map (·.value))) 0 le_rfl
      (segmentConsumptions_nonneg _ hv)
    rw [Option.some.injEq] at ht
    exact ht ▸ this
  · unfold calculate_consumption_from_readings at ht
    rw [if_pos (by omega)] at ht
    exact absurd ht (by simp)

/-- Witness for C10 at the reset example (total 50). -/
theorem C10_total_nonneg_witness :
    (∀ r ∈ ([⟨"2024-01-01", 100, none⟩, ⟨"2024-01-15", 120, none⟩,
        ⟨"2024-02-01", 30, none⟩] : List RVC), 0 ≤ r.value) ∧
    (calculate_consumption_from_readings
      [⟨"2024-01-01", 100, none⟩, ⟨"2024-01-15", 120, none⟩,
       ⟨"2024-02-01", 30, none⟩]).1 = some 50 ∧
    (0 : ℚ) ≤ 50 :=
  ⟨by with_unfolding_all decide, by with_unfolding_all decide,
   C10_total_nonneg
     [⟨"2024-01-01", 100, none⟩, ⟨"2024-01-15", 120, none⟩, ⟨"2024-02-01", 30, none⟩]
     50 (by with_unfolding_all decide) (by with_unfolding_all decide)⟩

/-- C2 counterexample: a period holding exactly one reading and no
next-period boundary reading.  The claim says no Consumption Record row
is written, but `_calculate_electricity_consumption` inserts a row with
NULL `consumption_value` and NULL `calculation_details`. -/
theorem C2_counterexample :
    (calculate_electricity_consumption "M" "2024-01-10"
        ⟨[⟨1, "2024-01-10", "M", "X", 100, none, false⟩], [], [], 2⟩).consumption =
      [⟨"2024-01", "electricity", "M", some "X", none, none⟩] ∧
    (calculate_electricity_consumption "M" "2024-01-10"
        ⟨[⟨1, "2024-01-10", "M", "X", 100, none, false⟩], [], [], 2⟩).consumption ≠ [] := by
  constructor
  · with_unfolding_all decide
  · with_unfolding_all decide

/-- C2 (amended): with at least one reading strictly inside the period
but fewer than two readings available in total (in-period readings plus
the optional boundary reading), the computed consumption is null, and a
Consumption Record row IS written for the key, carrying NULL
`consumption_value` and NULL `calculation_details` — the record is
present as a null-valued row, not absent. -/
theorem C2_null_row_written (meter date : String) (db : DB)
    (hne : elecPeriodReadings db.elec meter (periodOf date) ≠ [])
    (hfew : (elecPeriodReadings db.elec meter (periodOf date)).length +
        (elecBoundaryReading db.elec meter (periodOf date)).toList.length < 2) :
    elecFreshRows db.elec meter date =
      [⟨periodOf date, "electricity", meter, lookupElecMeterId db.elec meter, none, none⟩] ∧
    (⟨periodOf date, "electricity", meter, lookupElecMeterId db.elec meter,
        none, none⟩ : ConsumptionRow) ∈
      (calculate_electricity_consumption meter date db).consumption := by
  have hp : (elecPeriodReadings db.elec meter (periodOf date)).isEmpty = false := by
    cases h : (elecPeriodReadings db.elec meter (periodOf date)).isEmpty
    · rfl
    · exact absurd (List.isEmpty_iff.mp h) hne
  have hlen : (((elecPeriodReadings db.elec meter (periodOf date)) ++
      (elecBoundaryReading db.elec meter (periodOf date)).toList).map elecRVC).length < 2 := by
    rw [List.length_map, List.length_append]
    exact hfew
  have hres : calculate_consumption_from_readings
      (((elecPeriodReadings db.elec meter (periodOf date)) ++
        (elecBoundaryReading db.elec meter (periodOf date)).toList).map elecRVC) =
      (none, none, 0) := by
    unfold calculate_consumption_from_readings
    rw [if_pos hlen]
  have hfr : elecFreshRows db.elec meter date =
      [⟨periodOf date, "electricity", meter, lookupElecMeterId db.elec meter, none, none⟩] := by
    unfold elecFreshRows
    rw [if_neg (by simp [hp])]
    simp only [hres]
  refine ⟨hfr, ?_⟩
  rw [calc_elec_eq]
  apply List.mem_append_right
  rw [hfr]
  exact List.mem_singleton_self _

/-- Witness for the amended C2 at a concrete one-reading store. -/
theorem C2_null_row_written_witness :
    (elecPeriodReadings [⟨1, "2024-01-10", "M", "X", 100, none, false⟩] "M"
        (periodOf "2024-01-10") ≠ [] ∧
      (elecPeriodReadings [⟨1, "2024-01-10", "M", "X", 100, none, false⟩] "M"
          (periodOf "2024-01-10")).length +
        (elecBoundaryReading [⟨1, "2024-01-10", "M", "X", 100, none, false⟩] "M"
          (periodOf "2024-01-10")).toList.length < 2) ∧
    (⟨periodOf "2024-01-10", "electricity", "M",
        lookupElecMeterId [⟨1, "2024-01-10", "M", "X", 100, none, false⟩] "M",
        none, none⟩ : ConsumptionRow) ∈
      (calculate_electricity_consumption "M" "2024-01-10"
        ⟨[⟨1, "2024-01-10", "M", "X", 100, none, false⟩], [], [], 2⟩).consumption :=
  ⟨⟨by with_unfolding_all decide, by with_unfolding_all decide⟩,
   (C2_null_row_written "M" "2024-01-10"
      ⟨[⟨1, "2024-01-10", "M", "X", 100, none, false⟩], [], [], 2⟩
      (by with_unfolding_all decide) (by with_unfolding_all decide)).2⟩

theorem periodOf_prev01 (y m d : Nat) (hy : y < 10000) (hm : m < 100) :
    periodOf (⟨(prevPeriodStr (renderDate y m d)).data ++ "-01".data⟩ : String) =
      prevPeriodStr (renderDate y m d) := by
  rw [prevPeriodStr_renderDate _ _ _ hy hm]
  split_ifs
  · exact periodOf_period01 _ _
  · exact periodOf_period01 _ _

/-- C4: saving a reading with date `D` for meter `K` when the previous
calendar month has readings for `K` recomputes both Consumption Records:
afterwards the stored rows for `(previous month, K)` and for
`(month(D), K)` are exactly the rows freshly computed from the
post-insert reading store. -/
theorem C4_save_prev_cascade (db : DB) (r : ElecInput) (y m d : Nat) (x : String)
    (hy : y < 10000) (hm1 : 1 ≤ m) (hm2 : m ≤ 12)
    (hdate : r.date = renderDate y m d)
    (hx : lookupElecMeterId (upsertElec r db).1.elec r.meter_name = some x)
    (hprev : existsElecInPeriod (upsertElec r db).1.elec r.meter_name
      (prevPeriodStr r.date) = true) :
    rowsWithKey (prevPeriodStr r.date) "electricity" r.meter_name (some x)
        (save_electricity_reading r db).1.consumption =
      elecFreshRows (upsertElec r db).1.elec r.meter_name
        (⟨(prevPeriodStr r.date).data ++ "-01".data⟩ : String) ∧
    rowsWithKey (periodOf r.date) "electricity" r.meter_name (some x)
        (save_electricity_reading r db).1.consumption =
      elecFreshRows (upsertElec r db).1.elec r.meter_name r.date := by
  have hsave : (save_electricity_reading r db).1 =
      calculate_electricity_consumption r.meter_name
        (⟨(prevPeriodStr r.date).data ++ "-01".data⟩ : String)
        (calculate_electricity_consumption r.meter_name r.date (upsertElec r db).1) := by
    simp only [save_electricity_reading]
    rw [if_pos (by rw [calc_elec_elec]; exact hprev)]
  have hperprev : periodOf (⟨(prevPeriodStr r.date).data ++ "-01".data⟩ : String) =
      prevPeriodStr r.date := by
    rw [hdate]; exact periodOf_prev01 y m d hy (by omega)
  have hPP : prevPeriodStr r.date ≠ periodOf r.date := by
    rw [hdate]; exact prevPeriod_ne_period y m d hy hm1 hm2
  have hx2 : lookupElecMeterId
      (calculate_electricity_consumption r.meter_name r.date (upsertElec r db).1).elec
      r.meter_name = some x := by
    rw [calc_elec_elec]; exact hx
  constructor
  · rw [hsave]
    have h1 := rowsWithKey_calc_self r.meter_name
      (⟨(prevPeriodStr r.date).data ++ "-01".data⟩ : String)
      (calculate_electricity_consumption r.meter_name r.date (upsertElec r db).1) x hx2
    rw [hperprev] at h1
    rw [h1, calc_elec_elec]
  · rw [hsave]
    rw [rowsWithKey_calc_other _ _ _ _ _ _ _ (by rw [hperprev]; exact hPP.symm)]
    exact rowsWithKey_calc_self r.meter_name r.date (upsertElec r db).1 x hx

/-- Witness for C4: inserting a reading dated 2024-03-05 for meter `M`
when 2024-02 already has a reading recomputes the 2024-02 record. -/
theorem C4_save_prev_cascade_witness :
    existsElecInPeriod (upsertElec ⟨"2024-03-05", "M", "X", 150, none⟩
        ⟨[⟨1, "2024-02-10", "M", "X", 100, none, false⟩], [], [], 2⟩).1.elec "M"
      (prevPeriodStr "2024-03-05") = true ∧
    rowsWithKey (prevPeriodStr "2024-03-05") "electricity" "M" (some "X")
        (save_electricity_reading ⟨"2024-03-05", "M", "X", 150, none⟩
          ⟨[⟨1, "2024-02-10", "M", "X", 100, none, false⟩], [], [], 2⟩).1.consumption =
      elecFreshRows (upsertElec ⟨"2024-03-05", "M", "X", 150, none⟩
          ⟨[⟨1, "2024-02-10", "M", "X", 100, none, false⟩], [], [], 2⟩).1.elec "M"
        (⟨(prevPeriodStr "2024-03-05").data ++ "-01".data⟩ : String) :=
  ⟨by with_unfolding_all decide,
   (C4_save_prev_cascade ⟨[⟨1, "2024-02-10", "M", "X", 100, none, false⟩], [], [], 2⟩
      ⟨"2024-03-05", "M", "X", 150, none⟩ 2024 3 5 "X"
      (by omega) (by omega) (by omega)
      (by with_unfolding_all decide) (by with_unfolding_all decide)
      (by with_unfolding_all decide)).1⟩

theorem calc_elec_other_periods (meter date : String) (db : DB) :
    (calculate_electricity_consumption meter date db).consumption.filter
        (fun row => !(row.period == periodOf date)) =
      db.consumption.filter (fun row => !(row.period == periodOf date)) := by
  rw [calc_elec_eq]
  show List.filter _ (_ ++ _) = _
  rw [List.filter_append]
  have h2 : (elecFreshRows db.elec meter date).filter
      (fun row => !(row.period == periodOf date)) = [] := by
    rw [List.filter_eq_nil_iff]
    intro row hrow
    obtain ⟨h1, _, _, _⟩ := elecFreshRows_fields db.elec meter date row hrow
    simp [h1]
  have h1 : ((db.consumption.filter (fun row =>
      !(elecCalcMatch (periodOf date) meter (lookupElecMeterId db.elec meter) row))).filter
        (fun row => !(row.period == periodOf date))) =
      db.consumption.filter (fun row => !(row.period == periodOf date)) := by
    rw [List.filter_filter]
    apply List.filter_congr
    intro row hrow
    cases hper : (row.period == periodOf date)
    · have : elecCalcMatch (periodOf date) meter (lookupElecMeterId db.elec meter) row = false := by
        unfold elecCalcMatch
        simp [hper]
      simp [this, hper]
    · simp [hper]
  rw [h1, h2, List.append_nil]

/-- C5 counterexample: meter `M` has a 2024-02 reading (value 100) and a
2024-03 reading (value 150), both saved normally, so the stored 2024-02
record uses the March boundary value 150.  Updating the March reading to
value 200 leaves the 2024-02 record stale: it differs from the record a
fresh recomputation over the updated readings would produce — updates do
not cascade to the previous month. -/
theorem C5_counterexample :
    rowsWithKey (prevPeriodStr "2024-03-05") "electricity" "M" (some "X")
        (update_electricity_reading 2 ⟨"2024-03-05", "M", "X", 200, none⟩
          (save_electricity_reading ⟨"2024-03-05", "M", "X", 150, none⟩
            (save_electricity_reading ⟨"2024-02-10", "M", "X", 100, none⟩
              ⟨[], [], [], 1⟩).1).1).1.consumption ≠
      elecFreshRows
        (update_electricity_reading 2 ⟨"2024-03-05", "M", "X", 200, none⟩
          (save_electricity_reading ⟨"2024-03-05", "M", "X", 150, none⟩
            (save_electricity_reading ⟨"2024-02-10", "M", "X", 100, none⟩
              ⟨[], [], [], 1⟩).1).1).1.elec "M"
        (⟨(prevPeriodStr "2024-03-05").data ++ "-01".data⟩ : String) := by
  with_unfolding_all decide

/-- C5 (amended): an update recomputes only the Consumption Record of
the month of the reading's new date; the stored rows of every other
period — in particular the previous calendar month — are left unchanged
even when that month has readings.  The previous-period cascade applies
to insert (`save_*`) and delete, not to update. -/
theorem C5_update_current_only (db : DB) (id : Nat) (r : ElecInput) (x : String)
    (hupd : db.elec.any (fun q => q.id == id) = true)
    (hx : lookupElecMeterId (update_electricity_reading id r db).1.elec
      r.meter_name = some x) :
    (update_electricity_reading id r db).2 = true ∧
    rowsWithKey (periodOf r.date) "electricity" r.meter_name (some x)
        (update_electricity_reading id r db).1.consumption =
      elecFreshRows (update_electricity_reading id r db).1.elec r.meter_name r.date ∧
    (update_electricity_reading id r db).1.consumption.filter
        (fun row => !(row.period == periodOf r.date)) =
      db.consumption.filter (fun row => !(row.period == periodOf r.date)) := by
  simp only [update_electricity_reading, hupd, if_true] at hx ⊢
  rw [calc_elec_elec] at hx
  refine ⟨trivial, ?_, ?_⟩
  · rw [calc_elec_elec]
    exact rowsWithKey_calc_self r.meter_name r.date _ x hx
  · exact calc_elec_other_periods r.meter_name r.date _

/-- Witness for the amended C5 at a concrete one-reading store. -/
theorem C5_update_current_only_witness :
    ([⟨1, "2024-03-05", "M", "X", 150, none, false⟩] :
        List ElecReading).any (fun q => q.id == 1) = true ∧
    rowsWithKey (periodOf "2024-03-06") "electricity" "M" (some "X")
        (update_electricity_reading 1 ⟨"2024-03-06", "M", "X", 160, none⟩
          ⟨[⟨1, "2024-03-05", "M", "X", 150, none, false⟩], [], [], 2⟩).1.consumption =
      elecFreshRows
        (update_electricity_reading 1 ⟨"2024-03-06", "M", "X", 160, none⟩
          ⟨[⟨1, "2024-03-05", "M", "X", 150, none, false⟩], [], [], 2⟩).1.elec
        "M" "2024-03-06" :=
  ⟨by with_unfolding_all decide,
   (C5_update_current_only ⟨[⟨1, "2024-03-05", "M", "X", 150, none, false⟩], [], [], 2⟩
      1 ⟨"2024-03-06", "M", "X", 160, none⟩ "X"
      (by with_unfolding_all decide) (by with_unfolding_all decide)).2.1⟩

theorem elecFreshRows_nil_of_no_readings (elec : List ElecReading) (meter date : String)
    (h : existsElecInPeriod elec meter (periodOf date) = false) :
    elecFreshRows elec meter date = [] := by
  unfold existsElecInPeriod at h
  have hfil : elec.filter
      (fun r => r.meter_name == meter && periodOf r.date == periodOf date) = [] := by
    rw [List.filter_eq_nil_iff]
    intro r hr
    simpa using (List.any_eq_false.mp h) r hr
  have hprs : elecPeriodReadings elec meter (periodOf date) = [] := by
    unfold elecPeriodReadings
    rw [hfil]
    rfl
  simp [elecFreshRows, hprs]

/-- C6 counterexample: meter `M` has the single reading 2024-03-05 and a
stored (NULL-valued) record for 2024-03; deleting that reading leaves the
record in place — the `meter_id` lookup finds no row, the SQL
`meter_id = NULL` comparison matches nothing, and the recomputation
deletes nothing — whereas recomputing from the remaining (empty)
readings would leave no record at all. -/
theorem C6_counterexample :
    rowsWithKey (periodOf "2024-03-05") "electricity" "M" (some "X")
        (delete_electricity_reading 1
          (save_electricity_reading ⟨"2024-03-05", "M", "X", 150, none⟩
            ⟨[], [], [], 1⟩).1).1.consumption ≠
      elecFreshRows
        (delete_electricity_reading 1
          (save_electricity_reading ⟨"2024-03-05", "M", "X", 150, none⟩
            ⟨[], [], [], 1⟩).1).1.elec "M" "2024-03-05" := by
  with_unfolding_all decide

/-- C6 (amended): deleting a reading recomputes both the reading's month
and the previous month from the remaining readings, provided the meter
still has at least one remaining reading (so the `meter_id` lookup
resolves) and, for the previous month, provided the store satisfies the
reachable-state invariant that a month without readings holds no record
for the key.  Without the first proviso the old record survives (see the
counterexample); under them the stored rows for both keys afterwards are
exactly the freshly computed ones (possibly none, i.e. reverting to
absent). -/
theorem C6_delete_cascade (db : DB) (id : Nat) (rd : ElecReading)
    (y m d : Nat) (x : String)
    (hy : y < 10000) (hm1 : 1 ≤ m) (hm2 : m ≤ 12)
    (hfind : db.elec.find? (fun q => q.id == id) = some rd)
    (hdate : rd.date = renderDate y m d)
    (hx : lookupElecMeterId (db.elec.filter (fun q => !(q.id == id)))
      rd.meter_name = some x)
    (hinv : existsElecInPeriod (db.elec.filter (fun q => !(q.id == id)))
        rd.meter_name (prevPeriodStr rd.date) = false →
      rowsWithKey (prevPeriodStr rd.date) "electricity" rd.meter_name (some x)
        db.consumption = []) :
    rowsWithKey (periodOf rd.date) "electricity" rd.meter_name (some x)
        (delete_electricity_reading id db).1.consumption =
      elecFreshRows (db.elec.filter (fun q => !(q.id == id)))
        rd.meter_name rd.date ∧
    rowsWithKey (prevPeriodStr rd.date) "electricity" rd.meter_name (some x)
        (delete_electricity_reading id db).1.consumption =
      elecFreshRows (db.elec.filter (fun q => !(q.id == id))) rd.meter_name
        (⟨(prevPeriodStr rd.date).data ++ "-01".data⟩ : String) := by
  have hany : db.elec.any (fun q => q.id == id) = true := by
    have hmem := List.mem_of_find?_eq_some hfind
    have hp := List.find?_some hfind
    rw [List.any_eq_true]
    exact ⟨rd, hmem, hp⟩
  have hperprev : periodOf (⟨(prevPeriodStr rd.date).data ++ "-01".data⟩ : String) =
      prevPeriodStr rd.date := by
    rw [hdate]; exact periodOf_prev01 y m d hy (by omega)
  have hPP : prevPeriodStr rd.date ≠ periodOf rd.date := by
    rw [hdate]; exact prevPeriod_ne_period y m d hy hm1 hm2
  simp only [delete_electricity_reading, hfind, hany]
  by_cases hprev : existsElecInPeriod
      (calculate_electricity_consumption rd.meter_name rd.date
        { db with elec := db.elec.filter (fun q => !(q.id == id)) }).elec
      rd.meter_name (prevPeriodStr rd.date) = true
  · rw [if_pos hprev]
    constructor
    · rw [rowsWithKey_calc_other _ _ _ _ _ _ _ (by rw [hperprev]; exact hPP.symm)]
      exact rowsWithKey_calc_self rd.meter_name rd.date _ x hx
    · have hx2 : lookupElecMeterId
          (calculate_electricity_consumption rd.meter_name rd.date
            { db with elec := db.elec.filter (fun q => !(q.id == id)) }).elec
          rd.meter_name = some x := by
        rw [calc_elec_elec]; exact hx
      have h1 := rowsWithKey_calc_self rd.meter_name
        (⟨(prevPeriodStr rd.date).data ++ "-01".data⟩ : String)
        (calculate_electricity_consumption rd.meter_name rd.date
          { db with elec := db.elec.filter (fun q => !(q.id == id)) }) x hx2
      rw [hperprev] at h1
      rw [h1, calc_elec_elec]
  · rw [if_neg hprev]
    have hprevF : existsElecInPeriod (db.elec.filter (fun q => !(q.id == id)))
        rd.meter_name (prevPeriodStr rd.date) = false := by
      rw [calc_elec_elec] at hprev
      cases h : existsElecInPeriod (db.elec.filter (fun q => !(q.id == id)))
          rd.meter_name (prevPeriodStr rd.date)
      · rfl
      · exact absurd h hprev
    constructor
    · exact rowsWithKey_calc_self rd.meter_name rd.date _ x hx
    · rw [rowsWithKey_calc_other _ _ _ _ _ _ _ hPP]
      show rowsWithKey _ _ _ _ db.consumption = _
      rw [hinv hprevF]
      rw [elecFreshRows_nil_of_no_readings _ _ _ (by rw [hperprev]; exact hprevF)]

/-- Witness for the amended C6: deleting the sole 2024-03 reading (the
boundary closing out 2024-02) recomputes 2024-02's record from the
remaining readings. -/
theorem C6_delete_cascade_witness :
    List.find? (fun q => q.id == 2)
        (save_electricity_reading ⟨"2024-03-05", "M", "X", 150, none⟩
          (save_electricity_reading ⟨"2024-02-10", "M", "X", 100, none⟩
            ⟨[], [], [], 1⟩).1).1.elec =
      some ⟨2, "2024-03-05", "M", "X", 150, none, false⟩ ∧
    rowsWithKey (prevPeriodStr "2024-03-05") "electricity" "M" (some "X")
        (delete_electricity_reading 2
          (save_electricity_reading ⟨"2024-03-05", "M", "X", 150, none⟩
            (save_electricity_reading ⟨"2024-02-10", "M", "X", 100, none⟩
              ⟨[], [], [], 1⟩).1).1).1.consumption =
      elecFreshRows
        ((save_electricity_reading ⟨"2024-03-05", "M", "X", 150, none⟩
            (save_electricity_reading ⟨"2024-02-10", "M", "X", 100, none⟩
              ⟨[], [], [], 1⟩).1).1.elec.filter (fun q => !(q.id == 2)))
        "M" (⟨(prevPeriodStr "2024-03-05").data ++ "-01".data⟩ : String) :=
  ⟨by with_unfolding_all decide,
   (C6_delete_cascade
      (save_electricity_reading ⟨"2024-03-05", "M", "X", 150, none⟩
        (save_electricity_reading ⟨"2024-02-10", "M", "X", 100, none⟩
          ⟨[], [], [], 1⟩).1).1
      2 ⟨2, "2024-03-05", "M", "X", 150, none, false⟩ 2024 3 5 "X"
      (by omega) (by omega) (by omega)
      (by with_unfolding_all decide) (by with_unfolding_all decide)
      (by with_unfolding_all decide) (by with_unfolding_all decide)).2⟩

theorem save_returns_upsert_id (r : ElecInput) (db : DB) :
    (save_electricity_reading r db).2 = (upsertElec r db).2 := rfl

theorem elecConflict_update (r : ElecInput) (q : ElecReading) :
    elecConflict r (if elecConflict r q = true then
      { q with value := r.value, comment := r.comment } else q) = elecConflict r q := by
  cases h : elecConflict r q
  · simp [h]
  · simp only [h, if_true]
    unfold elecConflict at h ⊢
    exact h

theorem elecKey_update (r : ElecInput) (q : ElecReading) :
    elecKey (if elecConflict r q = true then
      { q with value := r.value, comment := r.comment } else q) = elecKey q := by
  cases h : elecConflict r q
  · simp [h]
  · simp only [h, if_true]
    rfl

theorem elecConflict_of_key_eq (r : ElecInput) (a : ElecReading)
    (h : elecKey a = (r.date, r.meter_name, r.meter_id)) : elecConflict r a = true := by
  unfold elecKey at h
  obtain ⟨h1, h2, h3⟩ : a.date = r.date ∧ a.meter_name = r.meter_name ∧
      a.meter_id = r.meter_id := by
    injection h with h1 h23
    injection h23 with h2 h3
    exact ⟨h1, h2, h3⟩
  simp [elecConflict, h1, h2, h3]

/-- C9: `readings_electricity` keeps at most one row per uniqueness key
`(date, meter_name, meter_id)`.  A save whose key conflicts with an
existing row overwrites that row's value and comment in place, creates
no new row, and returns the existing row's id; a save with a fresh key
appends exactly one new row and returns its id; key-uniqueness of the
table is preserved either way. -/
theorem C9_upsert_unique (db : DB) (r : ElecInput) (hU : elecKeyUnique db.elec) :
    elecKeyUnique (save_electricity_reading r db).1.elec ∧
    (∀ row0, db.elec.find? (elecConflict r) = some row0 →
      (save_electricity_reading r db).2 = row0.id ∧
      (save_electricity_reading r db).1.elec.length = db.elec.length ∧
      (save_electricity_reading r db).1.elec.find? (elecConflict r) =
        some { row0 with value := r.value, comment := r.comment } ∧
      (save_electricity_reading r db).1.elec.filter (fun q => !(elecConflict r q)) =
        db.elec.filter (fun q => !(elecConflict r q))) ∧
    (db.elec.find? (elecConflict r) = none →
      (save_electricity_reading r db).1.elec = db.elec ++
        [⟨db.nextElecId, r.date, r.meter_name, r.meter_id, r.value, r.comment, false⟩] ∧
      (save_electricity_reading r db).2 = db.nextElecId) := by
  rw [save_elec_readings, save_returns_upsert_id]
  refine ⟨?_, ?_, ?_⟩
  · cases hfind : db.elec.find? (elecConflict r) with
    | some row0 =>
        simp only [upsertElec, hfind]
        exact List.Pairwise.map _ (by
          intro a b hab
          rw [elecKey_update, elecKey_update]
          exact hab) hU
    | none =>
        simp only [upsertElec, hfind]
        rw [elecKeyUnique, List.pairwise_append]
        refine ⟨hU, List.pairwise_singleton _ _, ?_⟩
        intro a ha b hb
        rw [List.mem_singleton] at hb
        subst hb
        intro hk
        have := (List.find?_eq_none.mp hfind) a ha
        exact this (elecConflict_of_key_eq r a hk)
  · intro row0 hfind
    simp only [upsertElec, hfind]
    refine ⟨by trivial, by rw [List.length_map], ?_, ?_⟩
    · rw [List.find?_map]
      have hfun : (elecConflict r ∘ fun q => if elecConflict r q = true then
          { q with value := r.value, comment := r.comment } else q) = elecConflict r :=
        funext (fun q => elecConflict_update r q)
      rw [hfun, hfind]
      have hc := List.find?_some hfind
      simp [hc]
    · rw [List.filter_map]
      have hfil : db.elec.filter ((fun q => !(elecConflict r q)) ∘
          fun q => if elecConflict r q = true then
            { q with value := r.value, comment := r.comment } else q) =
          db.elec.filter (fun q => !(elecConflict r q)) := by
        apply List.filter_congr
        intro q hq
        simp only [Function.comp_apply]
        rw [elecConflict_update r q]
      rw [hfil]
      have hid : ∀ q ∈ db.elec.filter (fun q => !(elecConflict r q)),
          (if elecConflict r q = true then
            { q with value := r.value, comment := r.comment } else q) = q := by
        intro q hq
        have := (List.mem_filter.mp hq).2
        simp only [Bool.not_eq_true'] at this
        simp [this]
      rw [List.map_congr_left hid]
      simp
  · intro hfind
    simp only [upsertElec, hfind]
    exact ⟨by trivial, by trivial⟩

/-- Witness for C9: a conflicting save overwrites in place, keeps the
table length and returns the existing row's id. -/
theorem C9_upsert_unique_witness :
    elecKeyUnique ([⟨1, "2024-02-10", "M", "X", 100, none, false⟩] : List ElecReading) ∧
    (save_electricity_reading ⟨"2024-02-10", "M", "X", 111, some "fixed"⟩
        ⟨[⟨1, "2024-02-10", "M", "X", 100, none, false⟩], [], [], 2⟩).2 = 1 ∧
    (save_electricity_reading ⟨"2024-02-10", "M", "X", 111, some "fixed"⟩
        ⟨[⟨1, "2024-02-10", "M", "X", 100, none, false⟩], [], [], 2⟩).1.elec.length =
      ([⟨1, "2024-02-10", "M", "X", 100, none, false⟩] : List ElecReading).length :=
  ⟨by unfold elecKeyUnique; exact List.pairwise_singleton _ _,
   ((C9_upsert_unique ⟨[⟨1, "2024-02-10", "M", "X", 100, none, false⟩], [], [], 2⟩
        ⟨"2024-02-10", "M", "X", 111, some "fixed"⟩
        (by unfold elecKeyUnique; exact List.pairwise_singleton _ _)).2.1
      ⟨1, "2024-02-10", "M", "X", 100, none, false⟩
      (by with_unfolding_all decide)).1,
   ((C9_upsert_unique ⟨[⟨1, "2024-02-10", "M", "X", 100, none, false⟩], [], [], 2⟩
        ⟨"2024-02-10", "M", "X", 111, some "fixed"⟩
        (by unfold elecKeyUnique; exact List.pairwise_singleton _ _)).2.1
      ⟨1, "2024-02-10", "M", "X", 100, none, false⟩
      (by with_unfolding_all decide)).2.1⟩

theorem filter_and_congr {α : Type} (p q : α → Bool) (l1 l2 : List α)
    (h : l1.filter p = l2.filter p) :
    l1.filter (fun a => p a && q a) = l2.filter (fun a => p a && q a) := by
  have e : ∀ l : List α, l.filter (fun a => p a && q a) = (l.filter p).filter q := by
    intro l
    rw [List.filter_filter]
    apply List.filter_congr
    intro a _
    exact Bool.and_comm (p a) (q a)
  rw [e, e, h]

theorem find?_filter_congr {α : Type} (p : α → Bool) (l1 l2 : List α)
    (h : l1.filter p = l2.filter p) : l1.find? p = l2.find? p := by
  rw [find?_eq_head?_filter, find?_eq_head?_filter, h]

/-- C8: the water consumption row of a channel is a function of that
channel's readings only.  Two water stores agreeing on the readings of a
room's channel (warm or cold) yield identical consumption rows for that
channel, regardless of any differences on the other channel. -/
theorem C8_water_channels_independent (warm : Bool) (etype room period : String)
    (ws1 ws2 : List WaterReading)
    (h : ws1.filter (waterChanPred room warm) = ws2.filter (waterChanPred room warm)) :
    waterChannelRow ws1 room period etype warm =
      waterChannelRow ws2 room period etype warm := by
  unfold waterChanPred at h
  have hmid : lookupWaterMeterId ws1 room warm = lookupWaterMeterId ws2 room warm := by
    unfold lookupWaterMeterId
    rw [find?_filter_congr _ _ _ h]
  have hprs : waterPeriodReadings ws1 room warm period =
      waterPeriodReadings ws2 room warm period := by
    unfold waterPeriodReadings
    congr 1
    exact filter_and_congr _ (fun r => periodOf r.date == period) _ _ h
  have hbd : waterBoundaryReading ws1 room warm period =
      waterBoundaryReading ws2 room warm period := by
    unfold waterBoundaryReading
    congr 2
    exact filter_and_congr _
      (fun r => strLe (⟨period.data ++ "-32".data⟩ : String) r.date) _ _ h
  simp only [waterChannelRow]
  rw [hmid, hprs, hbd]

/-- Witness for C8: two stores agreeing on room `R`'s warm channel but
differing on the cold channel produce the same warm consumption row. -/
theorem C8_water_channels_independent_witness :
    ([⟨1, "2024-01-01", "R", "W1", 10, true, none, false⟩,
      ⟨2, "2024-01-02", "R", "C1", 5, false, none, false⟩] :
        List WaterReading).filter (waterChanPred "R" true) =
      ([⟨1, "2024-01-01", "R", "W1", 10, true, none, false⟩,
        ⟨3, "2024-01-03", "R", "C1", 7, false, none, false⟩,
        ⟨4, "2024-02-01", "R", "C1", 9, false, none, false⟩] :
          List WaterReading).filter (waterChanPred "R" true) ∧
    waterChannelRow
        [⟨1, "2024-01-01", "R", "W1", 10, true, none, false⟩,
         ⟨2, "2024-01-02", "R", "C1", 5, false, none, false⟩]
        "R" "2024-01" "water_warm" true =
      waterChannelRow
        [⟨1, "2024-01-01", "R", "W1", 10, true, none, false⟩,
         ⟨3, "2024-01-03", "R", "C1", 7, false, none, false⟩,
         ⟨4, "2024-02-01", "R", "C1", 9, false, none, false⟩]
        "R" "2024-01" "water_warm" true :=
  ⟨by with_unfolding_all decide,
   C8_water_channels_independent true "water_warm" "R" "2024-01"
     [⟨1, "2024-01-01", "R", "W1", 10, true, none, false⟩,
      ⟨2, "2024-01-02", "R", "C1", 5, false, none, false⟩]
     [⟨1, "2024-01-01", "R", "W1", 10, true, none, false⟩,
      ⟨3, "2024-01-03", "R", "C1", 7, false, none, false⟩,
      ⟨4, "2024-02-01", "R", "C1", 9, false, none, false⟩]
     (by with_unfolding_all decide)⟩

theorem charListLt_nil_right (s : List Char) : charListLt s [] = false := by
  cases s <;> rfl

theorem charListLt_append (a : List Char) : ∀ (b x y : List Char),
    a.length = b.length →
    charListLt (a ++ x) (b ++ y) =
      (charListLt a b || (decide (a = b) && charListLt x y)) := by
  induction a with
  | nil =>
      intro b x y h
      cases b with
      | nil => simp [charListLt, charListLt_nil_right]
      | cons d bs => simp at h
  | cons c as ih =>
      intro b x y h
      cases b with
      | nil => simp at h
      | cons d bs =>
          simp only [List.cons_append, charListLt]
          rw [show (as.append x) = as ++ x from rfl, show (bs.append y) = bs ++ y from rfl,
            ih bs x y (by simpa using h)]
          have hd : decide (c :: as = d :: bs) = (decide (c = d) && decide (as = bs)) := by
            by_cases hc : c = d <;> by_cases hab : as = bs <;> simp [hc, hab]
          rw [hd]
          cases h1 : decide (c < d) <;> cases h2 : decide (c = d) <;>
            cases h3 : decide (as = bs) <;> cases h4 : charListLt as bs <;>
            cases h5 : charListLt x y <;> simp

theorem append_eq_append_iff_of_length {α : Type} (a b x y : List α)
    (h : a.length = b.length) : a ++ x = b ++ y ↔ (a = b ∧ x = y) := by
  constructor
  · intro he
    exact List.append_inj he h
  · intro he
    rw [he.1, he.2]

theorem digit_lt_iff : ∀ a < 10, ∀ b < 10, (digitCh a < digitCh b ↔ a < b) := by decide

theorem digit_eq_iff : ∀ a < 10, ∀ b < 10, (digitCh a = digitCh b ↔ a = b) := by decide

theorem pad2_lt_iff (a b : Nat) (ha : a < 100) (hb : b < 100) :
    (charListLt (pad2 a) (pad2 b) = true ↔ a < b) := by
  show ((decide (digitCh (a / 10) < digitCh (b / 10)) ||
      (decide (digitCh (a / 10) = digitCh (b / 10)) &&
        (decide (digitCh (a % 10) < digitCh (b % 10)) ||
          (decide (digitCh (a % 10) = digitCh (b % 10)) && charListLt [] [])))) = true ↔ a < b)
  simp only [charListLt_nil_right, Bool.and_false, Bool.or_false,
    Bool.or_eq_true, Bool.and_eq_true, decide_eq_true_eq]
  rw [digit_lt_iff _ (by omega) _ (by omega), digit_eq_iff _ (by omega) _ (by omega),
    digit_lt_iff _ (by omega) _ (by omega)]
  omega

theorem pad2_eq_iff (a b : Nat) (ha : a < 100) (hb : b < 100) :
    (pad2 a = pad2 b ↔ a = b) := by
  simp only [pad2, List.cons.injEq, and_true]
  rw [digit_eq_iff _ (by omega) _ (by omega), digit_eq_iff _ (by omega) _ (by omega)]
  omega

theorem pad4_lt_iff (a b : Nat) (ha : a < 10000) (hb : b < 10000) :
    (charListLt (pad4 a) (pad4 b) = true ↔ a < b) := by
  unfold pad4
  rw [charListLt_append (pad2 (a / 100)) (pad2 (b / 100)) (pad2 (a % 100))
    (pad2 (b % 100)) (by rfl)]
  simp only [Bool.or_eq_true, Bool.and_eq_true, decide_eq_true_eq]
  rw [pad2_lt_iff _ _ (by omega) (by omega), pad2_eq_iff _ _ (by omega) (by omega),
    pad2_lt_iff _ _ (by omega) (by omega)]
  omega

theorem pad4_eq_iff (a b : Nat) (ha : a < 10000) (hb : b < 10000) :
    (pad4 a = pad4 b ↔ a = b) := by
  unfold pad4
  rw [append_eq_append_iff_of_length (pad2 (a / 100)) (pad2 (b / 100)) (pad2 (a % 100))
    (pad2 (b % 100)) (by rfl)]
  rw [pad2_eq_iff _ _ (by omega) (by omega), pad2_eq_iff _ _ (by omega) (by omega)]
  omega

theorem day_lt_32 (d : Nat) (hd : d ≤ 31) (s : List Char) :
    charListLt (pad2 d ++ s) ('3' :: '2' :: []) = true := by
  show (decide (digitCh (d / 10) < '3') ||
      (decide (digitCh (d / 10) = '3') &&
        (decide (digitCh (d % 10) < '2') ||
          (decide (digitCh (d % 10) = '2') && charListLt s [])))) = true
  rw [charListLt_nil_right s]
  have aux : ∀ e < 32, (decide (digitCh (e / 10) < '3') ||
      (decide (digitCh (e / 10) = '3') &&
        (decide (digitCh (e % 10) < '2') ||
          (decide (digitCh (e % 10) = '2') && false)))) = true := by decide
  exact aux d (by omega)

/-- C7: fetching the next-period boundary via the SQL string comparison
`date >= "YYYY-MM-32"` is equivalent to the spec's first-day-of-following-
month threshold: a well-formed date (YYYY-MM-DD, optionally followed by
any time suffix) compares `>=` the threshold exactly when its month is
strictly later than the period, so no in-period reading is ever selected
as the boundary. -/
theorem C7_boundary_string_compare (y m d py pm : Nat) (suffix : String)
    (hy : y < 10000) (hm1 : 1 ≤ m) (hm2 : m ≤ 12)
    (hd1 : 1 ≤ d) (hd2 : d ≤ 31)
    (hpy : py < 10000) (hpm1 : 1 ≤ pm) (hpm2 : pm ≤ 12) :
    (strLe (⟨(renderPeriod py pm).data ++ "-32".data⟩ : String)
        (⟨(renderDate y m d).data ++ suffix.data⟩ : String) = true ↔
      (py < y ∨ (py = y ∧ pm < m))) := by
  have hcons : ∀ u v : List Char, charListLt ('-' :: u) ('-' :: v) = charListLt u v := by
    intro u v
    rfl
  show (!(charListLt ((pad4 y ++ ('-' :: (pad2 m ++ ('-' :: pad2 d)))) ++ suffix.data)
      ((pad4 py ++ ('-' :: pad2 pm)) ++ ('-' :: '3' :: '2' :: [])))) = true ↔ _
  have hassoc : (pad4 y ++ ('-' :: (pad2 m ++ ('-' :: pad2 d)))) ++ suffix.data =
      (pad4 y ++ ('-' :: pad2 m)) ++ ('-' :: (pad2 d ++ suffix.data)) := by
    simp [List.append_assoc]
  rw [hassoc]
  rw [charListLt_append (pad4 y ++ ('-' :: pad2 m)) (pad4 py ++ ('-' :: pad2 pm))
    ('-' :: (pad2 d ++ suffix.data)) ('-' :: '3' :: '2' :: []) (by rfl)]
  rw [hcons (pad2 d ++ suffix.data) ('3' :: '2' :: [])]
  rw [day_lt_32 d (by omega) suffix.data, Bool.and_true]
  rw [charListLt_append (pad4 y) (pad4 py) ('-' :: pad2 m) ('-' :: pad2 pm) (by rfl)]
  rw [hcons (pad2 m) (pad2 pm)]
  have hlt4 := pad4_lt_iff y py hy hpy
  have hlt2 := pad2_lt_iff m pm (by omega) (by omega)
  have heqp : decide (pad4 y = pad4 py) = true ↔ (y = py) := by
    rw [decide_eq_true_eq]
    exact pad4_eq_iff y py hy hpy
  have hP7 : decide (pad4 y ++ ('-' :: pad2 m) = pad4 py ++ ('-' :: pad2 pm)) = true ↔
      (y = py ∧ m = pm) := by
    rw [decide_eq_true_eq]
    rw [append_eq_append_iff_of_length (pad4 y) (pad4 py) _ _ (by rfl)]
    simp only [List.cons.injEq, true_and]
    rw [pad4_eq_iff _ _ hy hpy, pad2_eq_iff _ _ (by omega) (by omega)]
  cases hA : charListLt (pad4 y) (pad4 py) <;>
    cases hB : decide (pad4 y = pad4 py) <;>
      cases hC : charListLt (pad2 m) (pad2 pm) <;>
        cases hD : decide (pad4 y ++ ('-' :: pad2 m) = pad4 py ++ ('-' :: pad2 pm)) <;>
          simp_all <;> omega

/-- Witness for C7: a 2024-03 date with a time suffix compares `>=` the
2024-02 threshold `"2024-02-32"`. -/
theorem C7_boundary_string_compare_witness :
    (strLe (⟨(renderPeriod 2024 2).data ++ "-32".data⟩ : String)
        (⟨(renderDate 2024 3 5).data ++ " 00:01:00".data⟩ : String) = true ↔
      (2024 < 2024 ∨ (2024 = 2024 ∧ 2 < 3))) ∧
    strLe (⟨(renderPeriod 2024 2).data ++ "-32".data⟩ : String)
        (⟨(renderDate 2024 3 5).data ++ " 00:01:00".data⟩ : String) = true :=
  ⟨C7_boundary_string_compare 2024 3 5 2024 2 " 00:01:00"
     (by omega) (by omega) (by omega) (by omega) (by omega)
     (by omega) (by omega) (by omega),
   by decide⟩
